import Mathlib

/-!
Verification of the data-retrieval / query core of the Airbnb NYC Streamlit app
(src/main.py) against its natural-language specification.

The program is a pandas/streamlit script. We embed the pandas operations it
uses shallowly:
* a dataframe row is a `Record`, a dataframe is a `Table` (`List Record`);
* float columns that may hold `NaN` are `Option ℚ` (`none` is the absent/NaN
  marker), following the pandas rule that a numeric comparison against `NaN`
  is `False`;
* `df.query` with a conjunction of comparisons is `List.filter`;
* `sort_values(col, ascending=False)` follows the pandas `nargsort`
  implementation: the rows whose key is present are reversed, stably argsorted
  ascending, and the resulting order reversed again (so ties keep original
  relative order); rows with an absent key are appended at the end in
  original order (the default `na_position = "last"`);
* `Series.describe(percentiles)` is `describe` below, returning a summary
  whose statistics are `Option ℚ` (`none` corresponds to a `NaN` entry);
* module-level queries of src/main.py (price filter, review-range filter,
  group means, availability filter) are given the operation names the spec
  uses for them.
-/

namespace AirbnbNYC

open scoped List

/-- One listing row of the CSV, restricted to the columns src/main.py touches.
`latitude`, `longitude` and `price` are float columns in pandas and may hold
`NaN`, modelled as `Option ℚ` with `none` for the absent value. -/
structure Record where
  id : ℕ
  name : String
  host_id : ℕ
  host_name : String
  neighbourhood_group : String
  neighbourhood : String
  latitude : Option ℚ
  longitude : Option ℚ
  room_type : String
  price : Option ℚ
  minimum_nights : ℕ
  number_of_reviews : ℕ
  availability_365 : ℕ
deriving DecidableEq, Inhabited

/-- A dataframe: an ordered sequence of records. -/
abbrev Table := List Record

/-- pandas comparison `v >= x` on a possibly-absent float value: a comparison
against `NaN` evaluates to `False` (used by `df.query("price>=800")`,
src/main.py:60,67). -/
def geNaN (v : Option ℚ) (x : ℚ) : Bool :=
  match v with
  | some p => decide (x ≤ p)
  | none => false

/-- pandas comparison `v < x` on a possibly-absent float value: a comparison
against `NaN` evaluates to `False` (used by the `" and price<200"` clause,
src/main.py:123,130). -/
def ltNaN (v : Option ℚ) (x : ℚ) : Bool :=
  match v with
  | some p => decide (p < x)
  | none => false

/-- The Query Engine `filter` operation: `df.query` with a row predicate,
keeping row order (src/main.py:60,67,105,130,142,160). -/
def filterRows (t : Table) (p : Record → Bool) : Table :=
  t.filter p

/-- The price filter `df.query("price>=800")` of src/main.py:60,67. -/
def priceAtLeast (x : ℚ) (t : Table) : Table :=
  filterRows t (fun r => geNaN r.price x)

/-- The review-range validation of src/main.py:156-157: the module rejects the
pair when `minimum > maximum` (the spec calls this `InvalidRangeError`). -/
inductive RangeError where
  | invalidRange
deriving DecidableEq

/-- The operation `validateRange` from the spec, embedding the `if minimum > maximum`
check of src/main.py:156: the pair is rejected exactly when `min > max`. -/
def validateRange (lo hi : ℕ) : Except RangeError (ℕ × ℕ) :=
  if lo > hi then Except.error RangeError.invalidRange else Except.ok (lo, hi)

/-- The review-count filter `df.query("@minimum<=number_of_reviews<=@maximum")`
of src/main.py:160: both endpoints inclusive. -/
def reviewRangeFilter (t : Table) (lo hi : ℕ) : Table :=
  filterRows t (fun r => decide (lo ≤ r.number_of_reviews) && decide (r.number_of_reviews ≤ hi))

/-- The availability filter inside `get_availability` (src/main.py:128-132):
`df.query(f"neighbourhood_group==@neighborhood and [price<200 and] availability_365>0")`.
The `price<200` clause is present exactly when the "include expensive
listings" checkbox is off (`show_exp = False`, src/main.py:122-123). -/
def availFilter (show_exp : Bool) (neighborhood : String) (df : Table) : Table :=
  filterRows df (fun r =>
    r.neighbourhood_group == neighborhood
      && (show_exp || ltNaN r.price 200)
      && decide (0 < r.availability_365))

/-- Ascending comparison on the (present) sort key of two rows, the order fed
to the stable argsort inside pandas `sort_values`. -/
def ascKey (key : Record → Option ℚ) (a b : Record) : Prop :=
  (key a).getD 0 ≤ (key b).getD 0

instance (key : Record → Option ℚ) : DecidableRel (ascKey key) :=
  fun a b => inferInstanceAs (Decidable ((key a).getD 0 ≤ (key b).getD 0))

instance (key : Record → Option ℚ) : IsTotal Record (ascKey key) :=
  ⟨fun a b => le_total ((key a).getD 0) ((key b).getD 0)⟩

instance (key : Record → Option ℚ) : IsTrans Record (ascKey key) :=
  ⟨fun _ _ _ hab hbc => le_trans hab hbc⟩

/-- The sort `df.sort_values(col, ascending=False)` (src/main.py:67,75,160): for
`ascending=False` pandas `nargsort` REVERSES the non-NaN values and their row
indices first, stably argsorts that reversed array in ascending order, then
reverses the resulting indexer again; rows with an absent (`NaN`) key are
appended at the end in original order (`na_position="last"`). The two
reversals cancel on ties, so rows with equal keys keep their original
relative order: the descending sort is stable (pandas GH6399). -/
def sortDescending (t : Table) (key : Record → Option ℚ) : Table :=
  (((t.filter (fun r => (key r).isSome)).reverse.insertionSort (ascKey key)).reverse
    ++ t.filter (fun r => !(key r).isSome))

/-- The operation `topN` from the spec: `df.sort_values(col, ascending=False).head(n)`
(src/main.py:67 with the default `n = 5`). -/
def topN (t : Table) (key : Record → Option ℚ) (n : ℕ) : Table :=
  (sortDescending t key).take n

/-- Linear interpolation between order statistics, the `interpolation="linear"`
rule of `numpy.percentile` used by `Series.describe`/`Series.quantile`:
for a sorted list of length `n` and fraction `q`, the virtual index is
`h = q * (n - 1)`; the result interpolates between the floor and ceiling
entries. Empty input yields `NaN` (`none`). -/
def percentileSorted (ys : List ℚ) (q : ℚ) : Option ℚ :=
  match ys with
  | [] => none
  | _ =>
    let n := ys.length
    let h : ℚ := q * ((n : ℚ) - 1)
    let i : ℕ := h.floor.toNat
    let lo := ys.getD i 0
    let hi := ys.getD (min (i + 1) (n - 1)) 0
    some (lo + (h - (i : ℚ)) * (hi - lo))

/-- The record produced by `Series.describe(percentiles=...)`
(src/main.py:131-132): count, mean, std, min, the requested percentiles, max.
Statistics that pandas reports as `NaN` are `none`. `std2` carries the square
of the sample standard deviation (variance with `ddof = 1`): the source
reports its square root, which is irrational in general; presence/absence and
the `NaN` pattern are identical. -/
structure Summary where
  count : ℕ
  mean : Option ℚ
  std2 : Option ℚ
  min : Option ℚ
  pcts : List (ℚ × Option ℚ)
  max : Option ℚ
deriving DecidableEq

/-- The summary `Series.describe(percentiles)` of a numeric column, per pandas semantics:
on an empty series it does not raise; it returns count `0` and `NaN` for every
other statistic. Mean is `sum / n`; std uses `ddof = 1` so it is `NaN` for
fewer than two values; min/max/percentiles come from the sorted values. -/
def describe (xs : List ℚ) (percentiles : List ℚ) : Summary :=
  let n := xs.length
  let srt := xs.insertionSort (· ≤ ·)
  { count := n
    mean := if n = 0 then none else some (xs.sum / (n : ℚ))
    std2 := if n < 2 then none else
      some (((xs.map (fun x => (x - xs.sum / (n : ℚ)) ^ 2)).sum) / ((n : ℚ) - 1))
    min := srt.head?
    pcts := percentiles.map (fun q => (q, percentileSorted srt q))
    max := srt.getLast? }

/-- The percentile list passed to `describe` in src/main.py:132. -/
def availabilityPercentiles : List ℚ :=
  [1/10, 1/4, 1/2, 3/4, 9/10, 99/100]

/-- The function `get_availability(show_exp, neighborhood)` (src/main.py:128-132): filter
the dataframe by neighbourhood group, optional price guard and positive
availability, then `describe` the `availability_365` column. The trailing
`.to_frame().T` of the source is presentation-only reshaping. -/
def get_availability (show_exp : Bool) (neighborhood : String) (df : Table) : Summary :=
  describe ((availFilter show_exp neighborhood df).map (fun r => (r.availability_365 : ℚ)))
    availabilityPercentiles

/-- Mean of a list of present values; `NaN` (`none`) on an empty list, matching
pandas `GroupBy.mean`, which divides by the number of non-`NaN` values. -/
def meanOpt (xs : List ℚ) : Option ℚ :=
  if xs.isEmpty then none else some (xs.sum / (xs.length : ℚ))

/-- Ascending lexicographic order on strings, compared through the underlying
character lists; this is the order in which pandas lists group keys. -/
def strLe (a b : String) : Prop :=
  a.data ≤ b.data

instance : DecidableRel strLe :=
  fun a b => inferInstanceAs (Decidable (a.data ≤ b.data))

/-- The group keys of `df.groupby("room_type")` (src/main.py:74): the distinct
`room_type` values, listed in the sorted ascending order pandas uses for group
keys (`sort=True` is the groupby default). -/
def groupKeys (t : Table) : List String :=
  ((t.map (fun r => r.room_type)).dedup).insertionSort strLe

/-- The present (non-`NaN`) prices of the rows of group `g`: pandas
`GroupBy.mean` drops `NaN` entries of the aggregated column. -/
def presentPrices (t : Table) (g : String) : List ℚ :=
  (t.filter (fun r => r.room_type == g)).filterMap (fun r => r.price)

/-- The aggregation `df.groupby("room_type").price.mean()` (src/main.py:74): maps each group
key to the arithmetic mean of the present prices of that group. The
`.round(2)`, re-sorting and string formatting of src/main.py:75-76 are
presentation-only. -/
def groupMeanPrice (t : Table) : List (String × Option ℚ) :=
  (groupKeys t).map (fun g => (g, meanOpt (presentPrices t g)))

/-- The derived-view cache. Modelled from the spec: the `@st.cache` decorator
(src/main.py:13,128) memoizes a function by the value of its arguments; the
decorator implementation is streamlit library code not present in src/.
`computeOrFetch` is the contract of spec section 4.4: a cache is a list of
key/value entries, keys compared structurally. -/
structure Cache (κ α : Type) where
  entries : List (κ × α)

/-- Structural lookup of a key among cache entries. -/
def lookupEntry {κ α : Type} [DecidableEq κ] : List (κ × α) → κ → Option α
  | [], _ => none
  | (k, v) :: rest, key => if key = k then some v else lookupEntry rest key

/-- Modelled from the spec: `computeOrFetch(key, f)` returns the cached value
when the key is present, and otherwise invokes `f` once and stores the result.
The third component counts the invocations of `f` performed by this call. -/
def computeOrFetch {κ α : Type} [DecidableEq κ] (c : Cache κ α) (key : κ) (f : κ → α) :
    α × Cache κ α × ℕ :=
  match lookupEntry c.entries key with
  | some v => (v, c, 0)
  | none => (f key, ⟨(key, f key) :: c.entries⟩, 1)

/-- The URL fetched by `get_data` (src/main.py:15). -/
def listingsURL : String :=
  "http://data.insideairbnb.com/united-states/ny/new-york-city/2021-09-01/visualisations/listings.csv"

/-- The cached `get_data` (src/main.py:13-16) seen through the cache model:
the load function stands for the fetch-and-parse step (network I/O, an
external collaborator), keyed by the source URL. -/
def get_data_cached (load : String → Table) (c : Cache String Table) :
    Table × Cache String Table × ℕ :=
  computeOrFetch c listingsURL load

/-- The cached `get_availability` (src/main.py:128-136) seen through the cache
model: keyed by the `(show_exp, neighborhood)` argument pair, compared by
value. -/
def get_availability_cached (df : Table) (c : Cache (Bool × String) Summary)
    (p : Bool × String) : Summary × Cache (Bool × String) Summary × ℕ :=
  computeOrFetch c p (fun q => get_availability q.1 q.2 df)

/-- The error the spec assigns to sampling more rows than exist (pandas raises
`ValueError` there). -/
inductive SampleError where
  | insufficientRows
deriving DecidableEq

/-- A linear congruential step, the pseudo-random number generator of the
sampling model. -/
def lcg (s : ℕ) : ℕ :=
  (1664525 * s + 1013904223) % 4294967296

/-- Draw `k` positions from a pool of row positions without replacement,
driven by the seeded generator. -/
def drawIdx : ℕ → ℕ → List ℕ → List ℕ
  | 0, _, _ => []
  | _ + 1, _, [] => []
  | k + 1, s, p :: ps =>
    let i := s % (p :: ps).length
    (p :: ps).getD i 0 :: drawIdx k (lcg s) ((p :: ps).eraseIdx i)

/-- Modelled from the spec: `df.sample(k, random_state=seed)`
(src/main.py:91,94) selects `k` distinct rows pseudo-randomly but
reproducibly from the seed; the underlying numpy `RandomState` machinery is
library code not present in src/, so the generator is modelled as a linear
congruential draw-without-replacement. When `k` exceeds the row count the
operation fails (`InsufficientRowsError` in the spec, a `ValueError` in
pandas). -/
def sample (t : Table) (k : ℕ) (seed : ℕ) : Except SampleError Table :=
  if t.length < k then Except.error SampleError.insufficientRows
  else Except.ok ((drawIdx k seed (List.range t.length)).map (fun i => t.getD i default))

/-! ### Concrete rows and tables used to instantiate the properties -/

/-- Build a listing row from the fields the properties vary; the remaining
columns take fixed neutral values. -/
def mkRec (i : ℕ) (g rt : String) (p : Option ℚ) (rev avail : ℕ) : Record :=
  ⟨i, "", 0, "", g, "", none, none, rt, p, 1, rev, avail⟩

/-- First row of the spec's `topN` example: price 10. -/
def exRow10 : Record := mkRec 0 "Brooklyn" "A" (some 10) 0 1

/-- Second row of the spec's `topN` example: price 90, earlier of the tie. -/
def exRow90a : Record := mkRec 1 "Brooklyn" "A" (some 90) 0 1

/-- Third row of the spec's `topN` example: price 90, later of the tie. -/
def exRow90b : Record := mkRec 2 "Brooklyn" "A" (some 90) 0 1

/-- Fourth row of the spec's `topN` example: price 5. -/
def exRow5 : Record := mkRec 3 "Brooklyn" "A" (some 5) 0 1

/-- The spec's `topN` example table, prices `[10, 90, 90, 5]`. -/
def exT4 : Table := [exRow10, exRow90a, exRow90b, exRow5]

/-- The spec's `groupAggregate` example table: room types A, A, B with
prices 100, 200, 50. -/
def exT3 : Table :=
  [mkRec 0 "Brooklyn" "A" (some 100) 0 1,
   mkRec 1 "Brooklyn" "A" (some 200) 0 2,
   mkRec 2 "Brooklyn" "B" (some 50) 0 3]

/-- A row of group A whose price is absent. -/
def exNoPriceRec : Record := mkRec 9 "Brooklyn" "A" none 0 1

/-- A one-row table whose row matches no `availFilter` query for the
neighbourhood group "Nowhere". -/
def exDfOne : Table := [mkRec 0 "Queens" "A" (some 100) 0 10]

/-! ### Helper lemmas -/

theorem sortDescending_perm (t : Table) (key : Record → Option ℚ) :
    sortDescending t key ~ t := by
  have h1 : ((t.filter (fun r => (key r).isSome)).reverse.insertionSort (ascKey key)).reverse
      ~ t.filter (fun r => (key r).isSome) :=
    ((List.reverse_perm _).trans (List.perm_insertionSort _ _)).trans
      (List.reverse_perm _)
  exact (h1.append_right _).trans (List.filter_append_perm _ t)

/-! ### The claims -/

/-- C9: `filter` is idempotent — filtering an already-filtered table by the
same predicate returns the same table, rows and order unchanged. -/
theorem filterRows_idempotent (t : Table) (p : Record → Bool) :
    filterRows (filterRows t p) p = filterRows t p := by
  simp [filterRows, List.filter_filter]

/-- C6: a numeric comparison against an absent (NaN) value is false, so a row
with an absent price is never in the result of the `price >= x` filter. -/
theorem absent_price_never_matches (t : Table) (x : ℚ) (r : Record)
    (h : r.price = none) : r ∉ priceAtLeast x t := by
  intro hmem
  have hp := (List.mem_filter.mp hmem).2
  rw [h] at hp
  simp [geNaN] at hp

/-- Witness for C6 at a concrete row with an absent price. -/
theorem absent_price_never_matches_witness :
    exNoPriceRec.price = none ∧ exNoPriceRec ∉ priceAtLeast 800 [exNoPriceRec] :=
  ⟨rfl, absent_price_never_matches [exNoPriceRec] 800 exNoPriceRec rfl⟩

/-- C5: the range validation fails with `InvalidRangeError` exactly when
`min > max`, succeeds otherwise, and the subsequent review-count filter keeps
exactly the rows whose review count lies in `[min, max]`, both endpoints
inclusive. -/
theorem validateRange_spec (lo hi : ℕ) (t : Table) (r : Record) :
    (validateRange lo hi = Except.error RangeError.invalidRange ↔ hi < lo)
    ∧ (lo ≤ hi → validateRange lo hi = Except.ok (lo, hi))
    ∧ (r ∈ reviewRangeFilter t lo hi ↔
        r ∈ t ∧ lo ≤ r.number_of_reviews ∧ r.number_of_reviews ≤ hi) := by
  refine ⟨?_, ?_, ?_⟩
  · by_cases h : lo > hi <;> simp [validateRange, h]
  · intro h
    have : ¬ lo > hi := by omega
    simp [validateRange, this]
  · simp [reviewRangeFilter, filterRows, List.mem_filter, and_assoc]

/-- Witness for C5: `validateRange 5 3` fails, `validateRange 3 5` succeeds,
and a concrete row with 2 reviews is kept by the `[0, 5]` filter. -/
theorem validateRange_spec_witness :
    validateRange 5 3 = Except.error RangeError.invalidRange
    ∧ validateRange 3 5 = Except.ok (3, 5)
    ∧ mkRec 0 "Brooklyn" "A" (some 10) 2 1 ∈
        reviewRangeFilter [mkRec 0 "Brooklyn" "A" (some 10) 2 1] 0 5 :=
  ⟨(validateRange_spec 5 3 [] default).1.mpr (by decide),
   (validateRange_spec 3 5 [] default).2.1 (by decide),
   (validateRange_spec 0 5 [mkRec 0 "Brooklyn" "A" (some 10) 2 1]
      (mkRec 0 "Brooklyn" "A" (some 10) 2 1)).2.2.mpr
     ⟨List.mem_singleton.mpr rfl, by decide, by decide⟩⟩

/-- C10: with the "include expensive listings" flag off, `get_availability`
summarises exactly the rows of the chosen neighbourhood group with a present
price strictly below 200 and positive `availability_365`; with the flag on the
price clause is dropped but the availability clause remains; and the summary's
count is exactly the number of filtered rows. -/
theorem get_availability_filter_spec (df : Table) (nb : String) (r : Record) :
    (r ∈ availFilter false nb df ↔
      r ∈ df ∧ r.neighbourhood_group = nb
        ∧ (∃ p, r.price = some p ∧ p < 200) ∧ 0 < r.availability_365)
    ∧ (r ∈ availFilter true nb df ↔
      r ∈ df ∧ r.neighbourhood_group = nb ∧ 0 < r.availability_365)
    ∧ (∀ b, (get_availability b nb df).count = (availFilter b nb df).length) := by
  refine ⟨?_, ?_, ?_⟩
  · cases hp : r.price <;>
      simp [availFilter, filterRows, List.mem_filter, ltNaN, hp, and_assoc]
  · simp [availFilter, filterRows, List.mem_filter, and_assoc]
  · intro b
    simp [get_availability, describe]

/-- C3: `topN` equals `sortDescending` followed by taking the first `n` rows;
its length is `min n (row count)`, and when the table has at most `n` rows it
returns all rows (a permutation of the table). -/
theorem topN_spec (t : Table) (key : Record → Option ℚ) (n : ℕ) :
    topN t key n = (sortDescending t key).take n
    ∧ (topN t key n).length = min n t.length
    ∧ (t.length ≤ n → topN t key n ~ t) := by
  refine ⟨rfl, ?_, ?_⟩
  · simp [topN, (sortDescending_perm t key).length_eq]
  · intro h
    have hl : (sortDescending t key).length = t.length :=
      (sortDescending_perm t key).length_eq
    have he : topN t key n = sortDescending t key := by
      unfold topN
      exact List.take_of_length_le (by omega)
    rw [he]
    exact sortDescending_perm t key

/-- Witness for C3: a 4-row table with `n = 9` returns all four rows. -/
theorem topN_spec_witness :
    exT4.length ≤ 9 ∧ topN exT4 (fun r => r.price) 9 ~ exT4 :=
  ⟨by decide, (topN_spec exT4 (fun r => r.price) 9).2.2 (by decide)⟩

/-- C4: `sortDescending` is a deterministic permutation of the table ordered
by descending key (shown here for tables whose key column is fully present),
and it is STABLE: two rows with equal keys appearing in the order `a` then `b`
in the table still appear in that order in the sorted output — pandas
`nargsort` reverses the input before the stable ascending argsort and the
indexer after it, and the two reversals cancel on ties. Consequently `topN`
on prices `[10, 90, 90, 5]` with `n = 2` returns the two 90-priced rows in
their original relative order. -/
theorem sortDescending_spec (t : Table) (key : Record → Option ℚ)
    (a b : Record) (hall : ∀ r ∈ t, (key r).isSome)
    (hab : key a = key b) (hsub : [a, b] <+ t) :
    sortDescending t key ~ t
    ∧ (sortDescending t key).Pairwise (fun x y => (key y).getD 0 ≤ (key x).getD 0)
    ∧ [a, b] <+ sortDescending t key
    ∧ topN exT4 (fun r => r.price) 2 = [exRow90a, exRow90b] := by
  refine ⟨sortDescending_perm t key, ?_, ?_, by decide⟩
  · have hfi : t.filter (fun r => (key r).isSome) = t :=
      List.filter_eq_self.mpr hall
    have hfe : t.filter (fun r => !(key r).isSome) = [] :=
      List.filter_eq_nil_iff.mpr (by
        intro r hr
        simp [hall r hr])
    unfold sortDescending
    rw [hfi, hfe, List.append_nil, List.pairwise_reverse]
    exact List.sorted_insertionSort (ascKey key) t.reverse
  · have hpa : (key a).isSome := hall a (hsub.subset (by simp))
    have hpb : (key b).isSome := hall b (hsub.subset (by simp))
    have h1 : List.filter (fun r => (key r).isSome) [a, b] = [a, b] :=
      List.filter_eq_self.mpr (by
        intro r hr
        rcases List.mem_pair.mp hr with h | h <;> simp [h, hpa, hpb])
    have h2 : [a, b] <+ t.filter (fun r => (key r).isSome) :=
      h1 ▸ hsub.filter _
    have h3 : [b, a] <+ (t.filter (fun r => (key r).isSome)).reverse := by
      simpa using h2.reverse
    have h4 : ascKey key b a := by
      unfold ascKey
      rw [hab]
    have h5 : [b, a] <+
        (t.filter (fun r => (key r).isSome)).reverse.insertionSort (ascKey key) :=
      List.pair_sublist_insertionSort h4 h3
    have h6 : [a, b] <+
        ((t.filter (fun r => (key r).isSome)).reverse.insertionSort (ascKey key)).reverse := by
      simpa using h5.reverse
    exact h6.trans (List.sublist_append_left _ _)

/-- Witness for C4 at the concrete example table: the tied 90-priced rows keep
their original relative order in the sorted output. -/
theorem sortDescending_spec_witness :
    (∀ r ∈ exT4, r.price.isSome)
    ∧ exRow90a.price = exRow90b.price
    ∧ [exRow90a, exRow90b] <+ exT4
    ∧ [exRow90a, exRow90b] <+ sortDescending exT4 (fun r => r.price)
    ∧ topN exT4 (fun r => r.price) 2 = [exRow90a, exRow90b] :=
  ⟨by decide, rfl, by decide,
   (sortDescending_spec exT4 (fun r => r.price) exRow90a exRow90b
      (by decide) rfl (by decide)).2.2.1,
   (sortDescending_spec exT4 (fun r => r.price) exRow90a exRow90b
      (by decide) rfl (by decide)).2.2.2⟩

/-- C2: starting from an empty cache, two `computeOrFetch` calls with an
identical key invoke the compute function exactly once (once on the first
call, zero times on the second) and both return the identical result; a
second, distinct key does not collide — it is computed freshly and returns its
own value. Key equality is structural (`DecidableEq`), not reference-based.
The same facts are instantiated for the two `@st.cache` functions of the
source, `get_availability` and `get_data`. -/
theorem computeOrFetch_spec {κ α : Type} [DecidableEq κ] (key k2 : κ)
    (f : κ → α) (hne : k2 ≠ key) :
    (computeOrFetch (Cache.mk ([] : List (κ × α))) key f).2.2 = 1
    ∧ (computeOrFetch (computeOrFetch (Cache.mk []) key f).2.1 key f).2.2 = 0
    ∧ (computeOrFetch (computeOrFetch (Cache.mk []) key f).2.1 key f).1
        = (computeOrFetch (Cache.mk ([] : List (κ × α))) key f).1
    ∧ (computeOrFetch (computeOrFetch (Cache.mk []) key f).2.1 k2 f).2.2 = 1
    ∧ (computeOrFetch (computeOrFetch (Cache.mk []) key f).2.1 k2 f).1 = f k2
    ∧ (∀ (df : Table) (p : Bool × String),
        (get_availability_cached df (get_availability_cached df (Cache.mk []) p).2.1 p).2.2 = 0)
    ∧ (∀ load : String → Table,
        (get_data_cached load (get_data_cached load (Cache.mk [])).2.1).2.2 = 0) := by
  refine ⟨rfl, ?_, ?_, ?_, ?_, ?_, ?_⟩ <;>
    simp [computeOrFetch, lookupEntry, hne, get_availability_cached, get_data_cached]

/-- Witness for C2 at two concrete distinct keys of the cached
`get_availability`. -/
theorem computeOrFetch_spec_witness :
    ((false, "Brooklyn") : Bool × String) ≠ (true, "Brooklyn")
    ∧ (computeOrFetch
        (computeOrFetch (Cache.mk []) ((true, "Brooklyn") : Bool × String)
          (fun q => get_availability q.1 q.2 [])).2.1
        (false, "Brooklyn") (fun q => get_availability q.1 q.2 [])).2.2 = 1 :=
  ⟨by decide,
   (computeOrFetch_spec (true, "Brooklyn") (false, "Brooklyn")
      (fun q => get_availability q.1 q.2 []) (by decide)).2.2.2.1⟩

/-- C7: the group mean over `room_type` on rows
`[(A, 100), (A, 200), (B, 50)]` yields the mapping `A ↦ 150, B ↦ 50`; a row
whose price is absent contributes nothing to its group (it is excluded, not
counted as zero); and every entry of the mapping is the arithmetic mean of the
present prices of its group. -/
theorem groupMeanPrice_spec :
    groupMeanPrice exT3 = [("A", some 150), ("B", some 50)]
    ∧ (∀ (t : Table) (g : String) (r : Record), r.price = none →
        presentPrices (t ++ [r]) g = presentPrices t g)
    ∧ (∀ (t : Table) (g : String) (v : Option ℚ),
        (g, v) ∈ groupMeanPrice t → v = meanOpt (presentPrices t g)) := by
  refine ⟨?_, ?_, ?_⟩
  · have h : groupMeanPrice exT3
        = [("A", meanOpt [100, 200]), ("B", meanOpt [50])] := rfl
    rw [h]
    norm_num [meanOpt]
  · intro t g r h
    by_cases hb : r.room_type == g <;>
      simp [presentPrices, List.filter_append, List.filterMap_append, hb, h]
  · intro t g v hmem
    simp only [groupMeanPrice, List.mem_map] at hmem
    obtain ⟨a, _, heq⟩ := hmem
    have h1 : a = g := congrArg Prod.fst heq
    have h2 : meanOpt (presentPrices t a) = v := congrArg Prod.snd heq
    rw [← h2, h1]

/-- Witness for C7: a concrete absent-price row of group A leaves the group's
price list unchanged, and the concrete `A` entry equals the mean of the
present prices of group `A`. -/
theorem groupMeanPrice_spec_witness :
    presentPrices (exT3 ++ [exNoPriceRec]) "A" = presentPrices exT3 "A"
    ∧ (some (150 : ℚ)) = meanOpt (presentPrices exT3 "A") :=
  ⟨groupMeanPrice_spec.2.1 exT3 "A" exNoPriceRec rfl,
   groupMeanPrice_spec.2.2 exT3 "A" (some 150) (by
      rw [groupMeanPrice_spec.1]
      exact List.mem_cons_self _ _)⟩

/-- The positions drawn by `drawIdx` number exactly `k` when the pool is large
enough. -/
theorem drawIdx_length : ∀ (k s : ℕ) (pool : List ℕ), k ≤ pool.length →
    (drawIdx k s pool).length = k
  | 0, _, _, _ => rfl
  | k + 1, s, [], h => by simp at h
  | k + 1, s, p :: ps, h => by
    have hi : s % (p :: ps).length < (p :: ps).length :=
      Nat.mod_lt _ (by simp)
    have hlen : (((p :: ps).eraseIdx (s % (p :: ps).length)).length)
        = (p :: ps).length - 1 :=
      List.length_eraseIdx_of_lt hi
    have hk : k ≤ ((p :: ps).eraseIdx (s % (p :: ps).length)).length := by
      rw [hlen]
      simp at h ⊢
      omega
    simp only [drawIdx]
    rw [List.length_cons, drawIdx_length k (lcg s) _ hk]

/-- The positions drawn by `drawIdx` from a duplicate-free pool are pairwise
distinct and all belong to the pool. -/
theorem drawIdx_nodup_mem : ∀ (k s : ℕ) (pool : List ℕ), pool.Nodup →
    (drawIdx k s pool).Nodup ∧ ∀ x ∈ drawIdx k s pool, x ∈ pool
  | 0, _, _, _ => ⟨List.nodup_nil, by intro x hx; simp [drawIdx] at hx⟩
  | k + 1, s, [], _ => ⟨List.nodup_nil, by intro x hx; simp [drawIdx] at hx⟩
  | k + 1, s, p :: ps, h => by
    have hi : s % (p :: ps).length < (p :: ps).length :=
      Nat.mod_lt _ (by simp)
    have hsub := List.eraseIdx_sublist (p :: ps) (s % (p :: ps).length)
    have hnd : ((p :: ps).eraseIdx (s % (p :: ps).length)).Nodup :=
      hsub.nodup h
    obtain ⟨ih1, ih2⟩ := drawIdx_nodup_mem k (lcg s) _ hnd
    have hgetD : (p :: ps).getD (s % (p :: ps).length) 0
        = (p :: ps)[s % (p :: ps).length] :=
      List.getD_eq_getElem _ _ hi
    have hnotmem : (p :: ps)[s % (p :: ps).length] ∉
        (p :: ps).eraseIdx (s % (p :: ps).length) := by
      intro hm
      obtain ⟨j, hj, hval⟩ := List.mem_eraseIdx_iff_getElem?.mp hm
      have hval2 : (p :: ps)[s % (p :: ps).length]? =
          some ((p :: ps)[s % (p :: ps).length]) :=
        List.getElem?_eq_getElem hi
      have hjlt : j < (p :: ps).length := by
        by_contra hc
        rw [List.getElem?_eq_none (by omega)] at hval
        exact Option.noConfusion hval
      rcases Nat.lt_or_ge j (s % (p :: ps).length) with hlt | hge
      · exact (List.nodup_iff_getElem?_ne_getElem?.mp h j _ hlt hi)
          (hval.trans hval2.symm)
      · have hlt2 : s % (p :: ps).length < j := by omega
        exact (List.nodup_iff_getElem?_ne_getElem?.mp h _ j hlt2 hjlt)
          (hval2.trans hval.symm)
    constructor
    · simp only [drawIdx, List.nodup_cons]
      refine ⟨?_, ih1⟩
      rw [hgetD]
      intro hmem
      exact hnotmem (ih2 _ hmem)
    · intro x hx
      simp only [drawIdx, List.mem_cons] at hx
      rcases hx with hx | hx
      · rw [hx, hgetD]
        exact List.getElem_mem hi
      · exact hsub.mem (ih2 x hx)

/-- C8: with a fixed seed, `sample` deterministically selects `k` pairwise
distinct row positions of the table (and thus `k` rows) whenever `k` does not
exceed the row count; when `k` exceeds the row count it fails with
`InsufficientRowsError`. Run-to-run reproducibility is intrinsic to the model:
the result is a function of `(table, k, seed)` alone. -/
theorem sample_spec (t : Table) (k seed : ℕ) :
    (t.length < k → sample t k seed = Except.error SampleError.insufficientRows)
    ∧ (k ≤ t.length → ∃ l, sample t k seed = Except.ok l ∧ l.length = k)
    ∧ (drawIdx k seed (List.range t.length)).Nodup
    ∧ (∀ i ∈ drawIdx k seed (List.range t.length), i < t.length)
    ∧ (∀ s2, s2 = seed → sample t k s2 = sample t k seed) := by
  obtain ⟨hnd, hmem⟩ := drawIdx_nodup_mem k seed (List.range t.length)
    (List.nodup_range t.length)
  refine ⟨?_, ?_, hnd, ?_, ?_⟩
  · intro h
    simp [sample, h]
  · intro h
    have hnl : ¬ t.length < k := by omega
    have hok : sample t k seed = Except.ok
        ((drawIdx k seed (List.range t.length)).map (fun i => t.getD i default)) := by
      simp [sample, hnl]
    refine ⟨_, hok, ?_⟩
    rw [List.length_map]
    exact drawIdx_length k seed _ (by simpa using h)
  · intro i hi
    exact List.mem_range.mp (hmem i hi)
  · intro s2 h
    rw [h]

/-- Witness for C8: on a concrete 3-row table, `k = 5` fails with the explicit
error and `k = 2` returns two rows. -/
theorem sample_spec_witness :
    (exT3.length < 5 ∧ sample exT3 5 4 = Except.error SampleError.insufficientRows)
    ∧ (2 ≤ exT3.length ∧ ∃ l, sample exT3 2 4 = Except.ok l ∧ l.length = 2) :=
  ⟨⟨by decide, (sample_spec exT3 5 4).1 (by decide)⟩,
   ⟨by decide, (sample_spec exT3 2 4).2.1 (by decide)⟩⟩

/-- C1 counterexample: `describe` on the empty filtered table does not signal
an error — it returns a summary whose mean is `NaN` (`none`), and
`get_availability` on a filter matching no rows likewise returns a silent
`NaN` summary, contradicting the claimed `EmptyInputError`. -/
theorem describe_empty_counterexample :
    (describe [] availabilityPercentiles).count = 0
    ∧ (describe [] availabilityPercentiles).mean = none
    ∧ (get_availability false "Nowhere" exDfOne).count = 0
    ∧ (get_availability false "Nowhere" exDfOne).mean = none := by
  refine ⟨rfl, rfl, rfl, rfl⟩

/-- C1 (amended): on a zero-row input `describe` returns a summary with count
`0` and `NaN` (`none`) mean, std, min, max and percentile values — it never
raises; and `get_availability` whose filter matches no rows returns that
all-`NaN` summary. -/
theorem describe_empty_spec (ps : List ℚ) (b : Bool) (nb : String) (df : Table)
    (h : availFilter b nb df = []) :
    describe [] ps = ⟨0, none, none, none, ps.map (fun q => (q, none)), none⟩
    ∧ (get_availability b nb df).count = 0
    ∧ (get_availability b nb df).mean = none
    ∧ (get_availability b nb df).std2 = none
    ∧ (get_availability b nb df).min = none
    ∧ (get_availability b nb df).max = none := by
  refine ⟨?_, ?_, ?_, ?_, ?_, ?_⟩ <;>
    simp [describe, percentileSorted, get_availability, h]

/-- Witness for C1 (amended): a concrete one-row table on which the
availability filter matches nothing. -/
theorem describe_empty_spec_witness :
    availFilter false "Nowhere" exDfOne = []
    ∧ (get_availability false "Nowhere" exDfOne).mean = none :=
  ⟨by decide,
   (describe_empty_spec [] false "Nowhere" exDfOne (by decide)).2.2.1⟩

end AirbnbNYC
